import Mathlib

/-!
Verification of `suitcase-specfile`: a shallow embedding in Lean 4 of
`src/suitcase/specfile/__init__.py`, the converter from bluesky document
streams to SPEC-format text files, together with proofs about the claims
of its specification.

Conventions of the embedding:
* Python dicts become association lists (`List (String × _)`);
* Python values flowing opaquely into `str()` become `PyVal`
  (a float is carried by its `str()` rendering, the only operation
  the code applies to it);
* fallible Python code (raising `KeyError`, `IndexError`,
  `NotImplementedError`, ...) becomes `Except PyErr _`;
* `datetime.fromtimestamp` / `strftime` / `strptime` (standard-library
  collaborators of the time codec) are modelled by an explicit
  proleptic-Gregorian civil-calendar conversion at second resolution
  with the local zone taken as a fixed zero-offset zone.
-/

/-! ## Python values -/

/-- A Python value as seen by the serializer: the code only ever feeds these
to `str()` (directly or via jinja's `join`), compares them, or passes them
through.  A float is represented by its `str()` rendering. -/
inductive PyVal where
  | int : Int → PyVal
  | str : String → PyVal
  | float : String → PyVal
  | none : PyVal
deriving DecidableEq

/-- Python `str()` on a `PyVal`. -/
def pyStr : PyVal → String
  | .int i => toString i
  | .str s => s
  | .float s => s
  | .none => "None"

/-- Python exception kinds raised by the code paths we model. -/
inductive PyErr where
  | notImplemented
  | indexError
  | keyError
  | typeError
  | attributeError
  | valueError
deriving DecidableEq

/-! ## Time codec: civil calendar model

`datetime.fromtimestamp` (at integer-second resolution, local zone taken as
a fixed zero-offset zone) is modelled by `epochToCivil`; the datetime's
`.timestamp()` semantics by `civilToEpoch`.  The day/civil conversion uses
the standard Gregorian era decomposition (400-year eras of 146097 days). -/

structure Civil where
  year : Nat
  month : Nat
  day : Nat
  hour : Nat
  minute : Nat
  second : Nat
deriving DecidableEq

/-- Gregorian leap-year test. -/
def isLeap (y : Nat) : Bool :=
  (y % 4 == 0 && y % 100 != 0) || y % 400 == 0

/-- Number of days in Gregorian year `y`. -/
def daysInYear (y : Nat) : Nat := if isLeap y then 366 else 365

/-- Number of Gregorian leap years in `[1, y)`. -/
def leapsBefore (y : Nat) : Nat :=
  (y - 1) / 4 - (y - 1) / 100 + (y - 1) / 400

/-- Days from 1970-01-01 to the start of year `y` (0 for years ≤ 1970). -/
def daysBeforeYear (y : Nat) : Nat :=
  if y ≤ 1970 then 0
  else 365 * (y - 1970) + (leapsBefore y - leapsBefore 1970)

/-- Month lengths, January first. -/
def monthDays (leap : Bool) : List Nat :=
  [31, if leap then 29 else 28, 31, 30, 31, 30, 31, 31, 30, 31, 30, 31]

/-- Locate a zero-based day offset in a list of month lengths, returning the
zero-based month index and the zero-based day within the month. -/
def splitMonths : List Nat → Nat → Nat × Nat
  | [], d => (0, d)
  | ml :: rest, d =>
    if d < ml then (0, d)
    else
      let p := splitMonths rest (d - ml)
      (p.1 + 1, p.2)

/-- Walk years upward from `y` until the day count `z` falls inside one;
the fuel argument (structurally decreasing, always sufficient at `z + 1`)
keeps the recursion kernel-reducible. -/
def yearFromDaysF : Nat → Nat → Nat → Nat × Nat
  | 0, y, z => (y, z)
  | fuel + 1, y, z =>
    if z < daysInYear y then (y, z)
    else yearFromDaysF fuel (y + 1) (z - daysInYear y)

/-- Convert a day count (days since 1970-01-01) into `(year, day-of-year)`
by walking years upward from `y`. -/
def yearFromDays (y z : Nat) : Nat × Nat := yearFromDaysF (z + 1) y z

/-- Model of `datetime.fromtimestamp` at second resolution (fixed-offset
local zone, proleptic Gregorian calendar). -/
def epochToCivil (t : Nat) : Civil :=
  let yd := yearFromDays 1970 (t / 86400)
  let md := splitMonths (monthDays (isLeap yd.1)) yd.2
  { year := yd.1, month := md.1 + 1, day := md.2 + 1,
    hour := t % 86400 / 3600, minute := t % 86400 % 3600 / 60,
    second := t % 60 }

/-- Days since 1970-01-01 of the Gregorian date `(y, m, d)`. -/
def daysFromCivil (y m d : Nat) : Nat :=
  daysBeforeYear y + ((monthDays (isLeap y)).take (m - 1)).sum + (d - 1)

/-- Model of `datetime.timestamp` at second resolution (fixed-offset local
zone). -/
def civilToEpoch (c : Civil) : Nat :=
  daysFromCivil c.year c.month c.day * 86400
    + c.hour * 3600 + c.minute * 60 + c.second

theorem isLeap_iff (y : Nat) :
    isLeap y = true ↔ ((y % 4 = 0 ∧ ¬ y % 100 = 0) ∨ y % 400 = 0) := by
  simp [isLeap, Bool.or_eq_true, Bool.and_eq_true]

set_option maxHeartbeats 1000000 in
theorem daysBeforeYear_succ (y : Nat) (h : 1970 ≤ y) :
    daysBeforeYear (y + 1) = daysBeforeYear y + daysInYear y := by
  by_cases hl : isLeap y = true
  · have hp : (y % 4 = 0 ∧ ¬ y % 100 = 0) ∨ y % 400 = 0 := (isLeap_iff y).mp hl
    simp only [daysBeforeYear, daysInYear, leapsBefore]
    rw [if_pos hl]
    split_ifs <;> omega
  · have hp : ¬ ((y % 4 = 0 ∧ ¬ y % 100 = 0) ∨ y % 400 = 0) :=
      fun p => hl ((isLeap_iff y).mpr p)
    simp only [daysBeforeYear, daysInYear, leapsBefore]
    rw [if_neg hl]
    split_ifs <;> omega

theorem daysBeforeYear_mono {y1 y2 : Nat} (h : y1 ≤ y2) :
    daysBeforeYear y1 ≤ daysBeforeYear y2 := by
  unfold daysBeforeYear leapsBefore
  split <;> split <;> omega

theorem yearFromDaysF_correct :
    ∀ fuel z y, z < fuel → 1970 ≤ y →
      (yearFromDaysF fuel y z).2 < daysInYear (yearFromDaysF fuel y z).1 ∧
      y ≤ (yearFromDaysF fuel y z).1 ∧
      daysBeforeYear (yearFromDaysF fuel y z).1 + (yearFromDaysF fuel y z).2 =
        daysBeforeYear y + z := by
  intro fuel
  induction fuel with
  | zero => intro z y hz; omega
  | succ f ih =>
    intro z y hz hy
    rw [yearFromDaysF]
    by_cases h : z < daysInYear y
    · simp [h]
    · simp only [h, if_false]
      have h365 : 365 ≤ daysInYear y := by unfold daysInYear; split <;> omega
      have hz2 : z - daysInYear y < f := by omega
      have := ih (z - daysInYear y) (y + 1) hz2 (by omega)
      refine ⟨this.1, by omega, ?_⟩
      rw [this.2.2, daysBeforeYear_succ y hy]
      omega

/-- Correctness of the year walk: day-of-year in range, year at least the
start year, and exact reconstruction of the day count. -/
theorem yearFromDays_correct :
    ∀ z y, 1970 ≤ y →
      (yearFromDays y z).2 < daysInYear (yearFromDays y z).1 ∧
      y ≤ (yearFromDays y z).1 ∧
      daysBeforeYear (yearFromDays y z).1 + (yearFromDays y z).2 =
        daysBeforeYear y + z := by
  intro z y hy
  exact yearFromDaysF_correct (z + 1) z y (by omega) hy

/-- Correctness of the month split: exact reconstruction, month index within
the list, and day strictly below the addressed month length. -/
theorem splitMonths_correct :
    ∀ (L : List Nat) (d : Nat), d < L.sum →
      (L.take ((splitMonths L d).1)).sum + (splitMonths L d).2 = d ∧
      (splitMonths L d).1 < L.length ∧
      (splitMonths L d).2 < L.getD ((splitMonths L d).1) 0 := by
  intro L
  induction L with
  | nil => intro d hd; simp at hd
  | cons ml rest ih =>
    intro d hd
    rw [splitMonths]
    by_cases h : d < ml
    · simp [h]
    · simp only [h, if_false]
      have hd2 : d - ml < rest.sum := by
        simp only [List.sum_cons] at hd; omega
      have := ih (d - ml) hd2
      refine ⟨?_, by simpa using this.2.1, by simpa using this.2.2⟩
      simp only [List.take_succ_cons, List.sum_cons]
      omega

theorem monthDays_sum (b : Bool) : (monthDays b).sum = if b then 366 else 365 := by
  cases b <;> decide

theorem monthDays_le31 (b : Bool) (i : Nat) : (monthDays b).getD i 0 ≤ 31 := by
  cases b <;> simp only [monthDays] <;>
    rcases i with _|_|_|_|_|_|_|_|_|_|_|_|i <;> simp [List.getD]

/-- The civil decomposition inverts the epoch second count. -/
theorem civilToEpoch_epochToCivil (t : Nat) :
    civilToEpoch (epochToCivil t) = t := by
  have hy := yearFromDays_correct (t / 86400) 1970 (by omega)
  set yd := yearFromDays 1970 (t / 86400) with hyd
  have hsum : yd.2 < (monthDays (isLeap yd.1)).sum := by
    rw [monthDays_sum]
    have := hy.1
    unfold daysInYear at this
    split <;> split at this <;> simp_all
  have hm := splitMonths_correct (monthDays (isLeap yd.1)) yd.2 hsum
  set md := splitMonths (monthDays (isLeap yd.1)) yd.2 with hmd
  have h1970 : daysBeforeYear 1970 = 0 := by decide
  unfold civilToEpoch epochToCivil daysFromCivil
  simp only [← hyd, ← hmd]
  have htake : ((monthDays (isLeap yd.1)).take (md.1 + 1 - 1)).sum = yd.2 - md.2 := by
    simp only [Nat.add_sub_cancel]
    omega
  rw [htake]
  have hz : daysBeforeYear yd.1 + (yd.2 - md.2) + (md.2 + 1 - 1) = t / 86400 := by
    have := hy.2.2
    rw [h1970] at this
    omega
  rw [hz]
  omega

/-- Bounds of the civil fields produced by `epochToCivil`; the year bound
holds up to the last representable `datetime` second
(9999-12-31 23:59:59 = 253402300799). -/
theorem epochToCivil_valid (t : Nat) (hbound : t < 253402300800) :
    1 ≤ (epochToCivil t).month ∧ (epochToCivil t).month ≤ 12 ∧
    1 ≤ (epochToCivil t).day ∧ (epochToCivil t).day ≤ 31 ∧
    (epochToCivil t).hour < 24 ∧ (epochToCivil t).minute < 60 ∧
    (epochToCivil t).second < 60 ∧ 1970 ≤ (epochToCivil t).year ∧
    (epochToCivil t).year < 10000 := by
  have hy := yearFromDays_correct (t / 86400) 1970 (by omega)
  set yd := yearFromDays 1970 (t / 86400) with hyd
  have hsum : yd.2 < (monthDays (isLeap yd.1)).sum := by
    rw [monthDays_sum]
    have := hy.1
    unfold daysInYear at this
    split <;> split at this <;> simp_all
  have hm := splitMonths_correct (monthDays (isLeap yd.1)) yd.2 hsum
  set md := splitMonths (monthDays (isLeap yd.1)) yd.2 with hmd
  have hlen : (monthDays (isLeap yd.1)).length = 12 := by
    cases isLeap yd.1 <;> decide
  have h31 := monthDays_le31 (isLeap yd.1) md.1
  have hyear : yd.1 < 10000 := by
    by_contra hc
    push_neg at hc
    have hmono := daysBeforeYear_mono hc
    have hval : daysBeforeYear 10000 = 2932897 := by decide
    have h1970 : daysBeforeYear 1970 = 0 := by decide
    have := hy.2.2
    rw [h1970] at this
    have hz : t / 86400 < 2932897 := by omega
    omega
  unfold epochToCivil
  simp only [← hyd, ← hmd]
  refine ⟨by omega, ?_, by omega, by omega, by omega, by omega, by omega,
    by have := hy.2.1; omega, by omega⟩
  have := hm.2.1
  omega

/-! ## Time codec: the `SPEC_TIME_FORMAT` printer and its inverse

`SPEC_TIME_FORMAT = '%a %b %d %H:%M:%S %Y'`.  `to_spec_time` models
`datetime.strftime` with this pattern (C locale); `from_spec_time` models
`datetime.strptime` on the zero-padded strings the printer emits. -/

def weekdayNames : List String := ["Sun", "Mon", "Tue", "Wed", "Thu", "Fri", "Sat"]

def monthNames : List String :=
  ["Jan", "Feb", "Mar", "Apr", "May", "Jun", "Jul", "Aug", "Sep", "Oct", "Nov", "Dec"]

def digitChar (n : Nat) : Char := Char.ofNat (48 + n)

def pad2 (n : Nat) : List Char := [digitChar (n / 10), digitChar (n % 10)]

def pad4 (n : Nat) : List Char :=
  [digitChar (n / 1000), digitChar (n / 100 % 10), digitChar (n / 10 % 10),
   digitChar (n % 10)]

/-- Model of `datetime.strftime(SPEC_TIME_FORMAT)` (the body of
`to_spec_time` in the source).  The weekday is derived from the date, as
`datetime` does. -/
def to_spec_time (c : Civil) : String :=
  let wd := (daysFromCivil c.year c.month c.day + 4) % 7
  (weekdayNames.getD wd "") ++ " " ++ (monthNames.getD (c.month - 1) "") ++ " " ++
    String.mk (pad2 c.day) ++ " " ++ String.mk (pad2 c.hour) ++ ":" ++
    String.mk (pad2 c.minute) ++ ":" ++ String.mk (pad2 c.second) ++ " " ++
    String.mk (pad4 c.year)

def isDigitCh (c : Char) : Bool := 48 ≤ c.toNat && c.toNat ≤ 57

def digitVal (c : Char) : Nat := c.toNat - 48

def parse2 : List Char → Option (Nat × List Char)
  | a :: b :: rest =>
    if isDigitCh a && isDigitCh b then some (10 * digitVal a + digitVal b, rest)
    else Option.none
  | _ => Option.none

def parse4 : List Char → Option (Nat × List Char)
  | a :: b :: c :: d :: rest =>
    if isDigitCh a && isDigitCh b && isDigitCh c && isDigitCh d then
      some (1000 * digitVal a + 100 * digitVal b + 10 * digitVal c + digitVal d, rest)
    else Option.none
  | _ => Option.none

def parseLit (ch : Char) : List Char → Option (List Char)
  | c :: rest => if c = ch then some rest else Option.none
  | [] => Option.none

def findIdxStr (s : String) : List String → Option Nat
  | [] => Option.none
  | n :: ns => if n = s then some 0 else (findIdxStr s ns).map (· + 1)

/-- Parse a three-letter abbreviation out of a name table (as `%a`/`%b`
do), returning its index. -/
def parseAbbrev (names : List String) : List Char → Option (Nat × List Char)
  | a :: b :: c :: rest => (findIdxStr (String.mk [a, b, c]) names).map (fun i => (i, rest))
  | _ => Option.none

/-- Model of `datetime.strptime(_, SPEC_TIME_FORMAT)` (the body of
`from_spec_time` in the source) on zero-padded inputs: fixed-width fields,
full-string match, `strptime`-style range validation; the weekday name is
validated but, as in `strptime`, not used for the result. -/
def from_spec_time (s : String) : Option Civil := do
  let cs0 := s.data
  let (_, cs1) ← parseAbbrev weekdayNames cs0
  let cs2 ← parseLit ' ' cs1
  let (mi, cs3) ← parseAbbrev monthNames cs2
  let cs4 ← parseLit ' ' cs3
  let (d, cs5) ← parse2 cs4
  let cs6 ← parseLit ' ' cs5
  let (hh, cs7) ← parse2 cs6
  let cs8 ← parseLit ':' cs7
  let (mm, cs9) ← parse2 cs8
  let cs10 ← parseLit ':' cs9
  let (ss, cs11) ← parse2 cs10
  let cs12 ← parseLit ' ' cs11
  let (yy, cs13) ← parse4 cs12
  match cs13 with
  | [] =>
    if 1 ≤ d ∧ d ≤ 31 ∧ hh ≤ 23 ∧ mm ≤ 59 ∧ ss ≤ 61 then
      some ⟨yy, mi + 1, d, hh, mm, ss⟩
    else Option.none
  | _ :: _ => Option.none

theorem isDigitCh_digitChar (k : Nat) (hk : k < 10) : isDigitCh (digitChar k) = true := by
  interval_cases k <;> decide

theorem digitVal_digitChar (k : Nat) (hk : k < 10) : digitVal (digitChar k) = k := by
  interval_cases k <;> decide

theorem parse2_pad2 (n : Nat) (hn : n < 100) (rest : List Char) :
    parse2 (pad2 n ++ rest) = some (n, rest) := by
  have h1 := isDigitCh_digitChar (n / 10) (by omega)
  have h2 := isDigitCh_digitChar (n % 10) (by omega)
  have h3 := digitVal_digitChar (n / 10) (by omega)
  have h4 := digitVal_digitChar (n % 10) (by omega)
  simp only [pad2, List.cons_append, List.nil_append, parse2, h1, h2, h3, h4,
    Bool.and_self, if_true]
  have hrec : 10 * (n / 10) + n % 10 = n := by omega
  rw [hrec]

theorem parse4_pad4 (n : Nat) (hn : n < 10000) (rest : List Char) :
    parse4 (pad4 n ++ rest) = some (n, rest) := by
  have h1 := isDigitCh_digitChar (n / 1000) (by omega)
  have h2 := isDigitCh_digitChar (n / 100 % 10) (by omega)
  have h3 := isDigitCh_digitChar (n / 10 % 10) (by omega)
  have h4 := isDigitCh_digitChar (n % 10) (by omega)
  have h5 := digitVal_digitChar (n / 1000) (by omega)
  have h6 := digitVal_digitChar (n / 100 % 10) (by omega)
  have h7 := digitVal_digitChar (n / 10 % 10) (by omega)
  have h8 := digitVal_digitChar (n % 10) (by omega)
  simp only [pad4, List.cons_append, List.nil_append, parse4, h1, h2, h3, h4,
    h5, h6, h7, h8, Bool.and_self, if_true]
  have hrec : 1000 * (n / 1000) + 100 * (n / 100 % 10) + 10 * (n / 10 % 10) + n % 10 = n := by
    omega
  rw [hrec]

theorem parseLit_cons (ch : Char) (rest : List Char) :
    parseLit ch (ch :: rest) = some rest := by
  simp [parseLit]

theorem parseAbbrev_weekday (i : Nat) (hi : i < 7) (rest : List Char) :
    parseAbbrev weekdayNames ((weekdayNames.getD i "").data ++ rest) = some (i, rest) := by
  interval_cases i <;> rfl

theorem parseAbbrev_month (i : Nat) (hi : i < 12) (rest : List Char) :
    parseAbbrev monthNames ((monthNames.getD i "").data ++ rest) = some (i, rest) := by
  interval_cases i <;> rfl

/-- String-level round trip of the time codec: parsing a printed civil time
recovers it exactly, for in-range civil values. -/
theorem from_to_spec_time (c : Civil)
    (h1 : 1 ≤ c.month) (h2 : c.month ≤ 12) (h3 : 1 ≤ c.day) (h4 : c.day ≤ 31)
    (h5 : c.hour < 24) (h6 : c.minute < 60) (h7 : c.second < 60)
    (h8 : c.year < 10000) :
    from_spec_time (to_spec_time c) = some c := by
  have hwd : (daysFromCivil c.year c.month c.day + 4) % 7 < 7 := by omega
  have hmk : ∀ l : List Char, (String.mk l).data = l := fun l => rfl
  have hsp : (" " : String).data = [' '] := rfl
  have hco : (":" : String).data = [':'] := rfl
  have hdata : (to_spec_time c).data =
      (weekdayNames.getD ((daysFromCivil c.year c.month c.day + 4) % 7) "").data ++
      (' ' :: ((monthNames.getD (c.month - 1) "").data ++
      (' ' :: (pad2 c.day ++ (' ' :: (pad2 c.hour ++ (':' :: (pad2 c.minute ++
      (':' :: (pad2 c.second ++ (' ' :: pad4 c.year))))))))))) := by
    simp only [to_spec_time, String.data_append, hmk, hsp, hco,
      List.append_assoc, List.cons_append, List.singleton_append,
      List.nil_append]
  have hp4 : parse4 (pad4 c.year) = some (c.year, []) := by
    simpa using parse4_pad4 c.year h8 []
  simp only [from_spec_time, hdata,
    parseAbbrev_weekday _ hwd,
    Option.bind_eq_bind, Option.some_bind,
    parseLit_cons,
    parseAbbrev_month (c.month - 1) (by omega),
    parse2_pad2 c.day (by omega),
    parse2_pad2 c.hour (by omega),
    parse2_pad2 c.minute (by omega),
    parse2_pad2 c.second (by omega),
    hp4]
  rw [if_pos ⟨h3, h4, by omega, by omega, by omega⟩]
  simp only [Option.some.injEq]
  obtain ⟨y, mo, d, hh, mm, ss⟩ := c
  simp only [Civil.mk.injEq, true_and, and_true]
  dsimp only at h1 h2 h3 h4 h5 h6 h7 h8 ⊢
  omega

/-! ## Document model

The bluesky documents, with exactly the fields the serializer consumes. -/

/-- One entry of a descriptor's `data_keys` mapping. -/
structure DataKey where
  source : String
  object_name : String
  shape : List Int
deriving DecidableEq

/-- A RunStart document (`start['motors']` is modelled as always present;
the code only reads it for motor-scan plans). -/
structure StartDoc where
  uid : String
  time : Nat
  plan_name : String
  scan_id : Int
  owner : Option String
  count_time : Option PyVal
  motors : List String
  plan_args_args : List PyVal
  plan_args_num : Option PyVal
deriving DecidableEq

/-- An EventDescriptor document. -/
structure Descriptor where
  name : Option String
  uid : String
  data_keys : List (String × DataKey)
deriving DecidableEq

/-- An Event document. -/
structure EventDoc where
  descriptor : String
  seq_num : Int
  time : Nat
  data : List (String × PyVal)
deriving DecidableEq

/-- A RunStop document. -/
structure StopDoc where
  exit_status : String
  reason : Option String
deriving DecidableEq

/-- The tagged union of documents fed to the serializer. -/
inductive Doc where
  | start : StartDoc → Doc
  | descriptor : Descriptor → Doc
  | event : EventDoc → Doc
  | stop : StopDoc → Doc

/-! ## Plan tables and helpers (`_SCANS_*`, `get_name`, `_get_*`) -/

/-- `_SCANS_WITHOUT_MOTORS = {'ct': 'count'}`. -/
def scansWithoutMotors : List (String × String) := [("ct", "count")]

/-- `_SCANS_WITH_MOTORS = {'ascan': 'scan', 'dscan': 'rel_scan'}`. -/
def scansWithMotors : List (String × String) :=
  [("ascan", "scan"), ("dscan", "rel_scan")]

/-- `_SPEC_SCAN_NAMES`: the union of the two tables. -/
def specScanNames : List (String × String) := scansWithoutMotors ++ scansWithMotors

/-- `_BLUESKY_PLAN_NAMES = {v: k for k, v in _SPEC_SCAN_NAMES.items()}`. -/
def blueskyPlanNames : List (String × String) :=
  specScanNames.map (fun p => (p.2, p.1))

/-- `get_name(plan_name)`: `_BLUESKY_PLAN_NAMES.get(plan_name, 'Other')`. -/
def get_name (plan_name : String) : String :=
  ((blueskyPlanNames.lookup plan_name).getD "Other")

/-- `_get_plan_name(start)`. -/
def getPlanName (st : StartDoc) : String := get_name st.plan_name

/-- `_get_acq_time(start)`: `start.get('count_time', -1)`, with `None`
replaced by the default because `None` is not legal in SPEC. -/
def getAcqTime (st : StartDoc) : PyVal :=
  match st.count_time with
  | Option.none => .int (-1)
  | some PyVal.none => .int (-1)
  | some v => v

/-- `_get_motor_name(start)`: `'seq_num'` for motorless/unknown plans;
otherwise the single entry of `start['motors']` (raising
`NotImplementedError` for more than one motor, `IndexError` for none). -/
def getMotorNameE (st : StartDoc) : Except PyErr String :=
  let pn := getPlanName st
  if (specScanNames.lookup pn).isNone || (scansWithoutMotors.lookup pn).isSome then
    .ok "seq_num"
  else if 1 < st.motors.length then
    .error .notImplemented
  else
    match st.motors with
    | [] => .error .indexError
    | m :: _ => .ok m

/-- `_get_motor_position(start, event)`: the sequence number for
motorless/unknown plans, else the motor's value from the event data. -/
def getMotorPositionE (st : StartDoc) (e : EventDoc) : Except PyErr PyVal :=
  let pn := getPlanName st
  if (specScanNames.lookup pn).isNone || (scansWithoutMotors.lookup pn).isSome then
    .ok (.int e.seq_num)
  else do
    let mn ← getMotorNameE st
    if mn = "seq_num" then
      .ok (.int e.seq_num)
    else
      match e.data.lookup mn with
      | some v => .ok v
      | Option.none => .error .keyError

/-- Code-point lexicographic order on character lists (the order Python's
`sorted` uses on strings). -/
def listLeCh : List Char → List Char → Bool
  | [], _ => true
  | _ :: _, [] => false
  | a :: as, b :: bs =>
    if a.toNat < b.toNat then true
    else if b.toNat < a.toNat then false
    else listLeCh as bs

/-- Code-point lexicographic order on strings. -/
def strLe (a b : String) : Bool := listLeCh a.data b.data

/-- Python `sorted` on strings (code-point lexicographic). -/
def sortStrs (l : List String) : List String :=
  List.insertionSort (fun a b : String => strLe a b = true) l

/-- Insert a key-value pair into a key-sorted association list. -/
def insertPair (p : String × PyVal) :
    List (String × PyVal) → List (String × PyVal)
  | [] => [p]
  | q :: qs => if strLe p.1 q.1 then p :: q :: qs else q :: insertPair p qs

/-- Python `sorted(d.items())` on an association list with distinct keys. -/
def sortPairs : List (String × PyVal) → List (String × PyVal)
  | [] => []
  | p :: ps => insertPair p (sortPairs ps)

theorem listLeCh_total : ∀ as bs, listLeCh as bs = true ∨ listLeCh bs as = true := by
  intro as
  induction as with
  | nil => intro bs; left; rfl
  | cons a as ih =>
    intro bs
    cases bs with
    | nil => right; rfl
    | cons b bs =>
      by_cases h1 : a.toNat < b.toNat
      · left; simp [listLeCh, h1]
      · by_cases h2 : b.toNat < a.toNat
        · right; simp [listLeCh, h1, h2]
        · rcases ih bs with h | h
          · left; simp [listLeCh, h1, h2, h]
          · right; simp [listLeCh, h1, h2, h]

theorem listLeCh_trans : ∀ as bs cs, listLeCh as bs = true →
    listLeCh bs cs = true → listLeCh as cs = true := by
  intro as
  induction as with
  | nil => intro bs cs _ _; rfl
  | cons a as ih =>
    intro bs cs h1 h2
    cases bs with
    | nil => simp [listLeCh] at h1
    | cons b bs =>
      cases cs with
      | nil => simp [listLeCh] at h2
      | cons c cs =>
        simp only [listLeCh] at h1 h2 ⊢
        split_ifs at h1 h2 ⊢ <;> try rfl
        all_goals (try omega)
        all_goals exact ih bs cs h1 h2

/-- The column-selection body: all scalar fields whose object is not the
motor, sorted by field name. -/
def columnsOf (pd : Descriptor) (mn : String) : List String :=
  sortStrs ((pd.data_keys.filter
    (fun kv => kv.2.object_name != mn && kv.2.shape.isEmpty)).map Prod.fst)

/-- `_get_scan_data_column_names(start, primary_descriptor)`. -/
def getScanDataColumnNamesE (st : StartDoc) (pd : Descriptor) :
    Except PyErr (List String) := do
  let mn ← getMotorNameE st
  .ok (columnsOf pd mn)

/-! ## Line formatters (the jinja templates, rendered) -/

/-- `os.path.basename`: the suffix after the last `'/'`. -/
def basename (p : String) : String :=
  String.mk (p.data.foldl (fun acc c => if c = '/' then [] else acc ++ [c]) [])

/-- The positioner names of the file header: baseline `data_keys` sorted
(`_DEFAULT_POSITIONERS`' empty mapping when there is no baseline
descriptor). -/
def fileHeaderPosNames (bd : Option Descriptor) : List String :=
  match bd with
  | Option.none => []
  | some b => sortStrs (b.data_keys.map Prod.fst)

/-- The positioner sources of the file header, in name order. -/
def fileHeaderPosSources (bd : Option Descriptor) : List String :=
  match bd with
  | Option.none => []
  | some b =>
    (fileHeaderPosNames bd).map
      (fun k => (((b.data_keys.lookup k).map (fun v => v.source)).getD ""))

/-- The six lines of `_SPEC_FILE_HEADER_TEMPLATE`, rendered as
`to_spec_file_header` does. -/
def toSpecFileHeaderLines (st : StartDoc) (filepath : String)
    (bd : Option Descriptor) : List String :=
  let owner := st.owner.getD ""
  ["#F " ++ basename filepath,
   "#E " ++ toString st.time,
   "#D " ++ to_spec_time (epochToCivil st.time),
   "#C " ++ owner ++ "  User = " ++ owner,
   "#O0 " ++ String.intercalate "  " (fileHeaderPosSources bd),
   "#o0 " ++ String.intercalate " " (fileHeaderPosNames bd)]

/-- `to_spec_file_header(start, filepath, baseline_descriptor)`. -/
def to_spec_file_header (st : StartDoc) (filepath : String)
    (bd : Option Descriptor) : String :=
  String.intercalate "\n" (toSpecFileHeaderLines st filepath bd)

/-- The `[start, stop, num]` command arguments: present only for the
motor-scan plans, read from `plan_args['args'][-2:]` and
`plan_args['num']`. -/
def specCommandArgsE (st : StartDoc) : Except PyErr (List PyVal) :=
  let sc := getPlanName st
  if (specScanNames.lookup sc).isNone || (scansWithoutMotors.lookup sc).isSome then
    .ok []
  else
    match st.plan_args_args.reverse with
    | stop_val :: start_val :: _ =>
      match st.plan_args_num with
      | some num => .ok [start_val, stop_val, num]
      | Option.none => .error .keyError
    | _ => .error .indexError

/-- The composed `#S` command string of `to_spec_scan_header`:
`' '.join(str(s) for s in [scan_command, motor_name] + command_args +
[acq_time])`. -/
def specScanCommandE (st : StartDoc) : Except PyErr String := do
  let sc := getPlanName st
  let mn ← getMotorNameE st
  let acq := getAcqTime st
  let cargs ← specCommandArgsE st
  .ok (String.intercalate " "
    (([PyVal.str sc, PyVal.str mn] ++ cargs ++ [acq]).map pyStr))

/-- The positioner positions of the scan header: values of the retained
baseline event's data sorted by key; `-1` per key of
`_DEFAULT_POSITIONERS['data_keys']` (which is empty) when no baseline
event was retained. -/
def specScanHeaderPositions (be : Option EventDoc) : List PyVal :=
  match be with
  | Option.none => []
  | some e => (sortPairs e.data).map Prod.snd

/-- The lines of `_SPEC_SCAN_HEADER_TEMPLATE` given the already-derived
command, motor name and columns (the two leading empty strings render the
template's two leading newlines). -/
def scanHeaderLinesOf (st : StartDoc) (cmd mn : String) (cols : List String)
    (be : Option EventDoc) : List String :=
  ["", "",
   "#S " ++ toString st.scan_id ++ " " ++ cmd,
   "#D " ++ to_spec_time (epochToCivil st.time),
   "#T " ++ pyStr (getAcqTime st) ++ "  (Seconds)",
   "#P0 " ++ String.intercalate " " ((specScanHeaderPositions be).map pyStr),
   "#N " ++ toString (3 + cols.length),
   "#L " ++ mn ++ "  Epoch  Seconds  " ++ String.intercalate "  " cols]

/-- The lines of `_SPEC_SCAN_HEADER_TEMPLATE` as rendered by
`to_spec_scan_header`. -/
def toSpecScanHeaderLinesE (st : StartDoc) (pd : Descriptor)
    (be : Option EventDoc) : Except PyErr (List String) := do
  let cmd ← specScanCommandE st
  let dkeys ← getScanDataColumnNamesE st pd
  let mn ← getMotorNameE st
  .ok (scanHeaderLinesOf st cmd mn dkeys be)

/-- `to_spec_scan_header(start, primary_descriptor, baseline_event)`. -/
def toSpecScanHeaderE (st : StartDoc) (pd : Descriptor)
    (be : Option EventDoc) : Except PyErr String :=
  (toSpecScanHeaderLinesE st pd be).map (fun ls => String.intercalate "\n" ls)

/-- `to_spec_scan_data(start, primary_descriptor, event)`: the rendered
`_SPEC_EVENT_TEMPLATE` (which begins with a newline). -/
def toSpecScanDataE (st : StartDoc) (pd : Descriptor) (e : EventDoc) :
    Except PyErr String := do
  let mp ← getMotorPositionE st e
  let dkeys ← getScanDataColumnNamesE st pd
  let vals ← dkeys.mapM (fun k =>
    match e.data.lookup k with
    | some v => Except.ok v
    | Option.none => Except.error PyErr.keyError)
  .ok ("\n" ++ pyStr mp ++ "  " ++ toString e.time ++ " " ++
    pyStr (getAcqTime st) ++ " " ++ String.intercalate " " (vals.map pyStr))

/-- The trailer written by `Serializer.stop`: a newline, plus the failure
comment when the exit status is not `'success'`. -/
def stopMsg (sp : StopDoc) : String :=
  let reason := sp.reason.getD "No reason recorded."
  if sp.exit_status ≠ "success" then
    "\n" ++ "#C Run exited with status: " ++ sp.exit_status ++ ". Reason: " ++ reason
  else "\n"

/-! ## The streaming `Serializer` -/

/-- The serializer's mutable state together with the single output
resource it drives: `content` is the file's current content (pre-existing
content included, so `tell()` is its length), `fileOpen` whether `start`
has opened the file. -/
structure SState where
  content : String
  filename : String
  startDoc : Option StartDoc
  baseline_descriptor : Option Descriptor
  baseline_event : Option EventDoc
  primary_descriptor : Option Descriptor
  has_not_written_scan_header : Bool
  has_not_written_file_header : Bool
  num_events_received : Nat
  num_baseline_events_received : Nat
  fileOpen : Bool
deriving DecidableEq

/-- A fresh `Serializer` (its `__init__`) over an output resource whose
current content is `c` (empty for a new file). -/
def initSState (c : String) : SState :=
  { content := c, filename := "", startDoc := Option.none,
    baseline_descriptor := Option.none, baseline_event := Option.none,
    primary_descriptor := Option.none,
    has_not_written_scan_header := true,
    has_not_written_file_header := true,
    num_events_received := 0, num_baseline_events_received := 0,
    fileOpen := false }

/-- `Serializer.start`: stash the start document, open the output resource
under the default `'{start[uid]}.spec'` name, and probe `tell()` to decide
whether the file header is still needed. -/
def serializerStart (s : SState) (doc : StartDoc) : SState :=
  { s with startDoc := some doc,
           filename := doc.uid ++ ".spec",
           fileOpen := true,
           has_not_written_file_header := s.content == "" }

/-- `Serializer.descriptor`: store a `'baseline'` descriptor
(unconditionally overwriting any previous one); store the first
non-baseline descriptor as primary and reject any further one. -/
def serializerDescriptor (s : SState) (doc : Descriptor) :
    Except PyErr SState :=
  if doc.name == some "baseline" then
    .ok { s with baseline_descriptor := some doc }
  else
    match s.primary_descriptor with
    | some _ => .error .notImplemented
    | Option.none => .ok { s with primary_descriptor := some doc }

/-- The non-baseline part of `Serializer.event`: write the file header if
still pending, then the scan header if still pending, then check the
descriptor reference and write one data line. -/
def serializerEventMain (s : SState) (doc : EventDoc) : Except PyErr SState := do
  let s1 ←
    if s.has_not_written_file_header then
      if s.fileOpen = false then .error .keyError
      else
        match s.startDoc with
        | Option.none => .error .typeError
        | some st =>
          .ok { s with
            content := s.content ++ to_spec_file_header st s.filename s.baseline_descriptor,
            has_not_written_file_header := false }
    else .ok s
  let s2 ←
    if s1.has_not_written_scan_header then
      match s1.startDoc, s1.primary_descriptor with
      | Option.none, _ => .error .typeError
      | some _, Option.none => .error .typeError
      | some st, some pd => do
        let hdr ← toSpecScanHeaderE st pd s1.baseline_event
        .ok { s1 with content := s1.content ++ hdr,
                      has_not_written_scan_header := false }
    else .ok s1
  match s2.primary_descriptor with
  | Option.none => .error .typeError
  | some pd =>
    if doc.descriptor ≠ pd.uid then .error .notImplemented
    else
      match s2.startDoc with
      | Option.none => .error .typeError
      | some st => do
        let line ← toSpecScanDataE st pd doc
        .ok { s2 with
          num_events_received := s2.num_events_received + 1,
          content := s2.content ++ line ++ "\n" }

/-- `Serializer.event`: a baseline event is retained (replacing any earlier
one) and writes nothing; anything else goes through the main path. -/
def serializerEvent (s : SState) (doc : EventDoc) : Except PyErr SState :=
  match s.baseline_descriptor with
  | some bd =>
    if doc.descriptor == bd.uid then
      .ok { s with
        num_baseline_events_received := s.num_baseline_events_received + 1,
        baseline_event := some doc }
    else serializerEventMain s doc
  | Option.none => serializerEventMain s doc

/-- `Serializer.stop`: write the trailer. -/
def serializerStop (s : SState) (sp : StopDoc) : Except PyErr SState :=
  if s.fileOpen then .ok { s with content := s.content ++ stopMsg sp }
  else .error .attributeError

/-- Dispatch one document to its handler. -/
def stepDoc (s : SState) : Doc → Except PyErr SState
  | .start st => .ok (serializerStart s st)
  | .descriptor d => serializerDescriptor s d
  | .event e => serializerEvent s e
  | .stop sp => serializerStop s sp

/-- Feed a document sequence; stop at the first raised exception, keeping
the state reached so far (the Python object survives the exception). -/
def runDocs (s : SState) : List Doc → SState × Option PyErr
  | [] => (s, Option.none)
  | d :: ds =>
    match stepDoc s d with
    | .ok s2 => runDocs s2 ds
    | .error e => (s, some e)

/-! ## Run-level machinery -/

/-- Whether an event references the primary descriptor. -/
def primEvt (pd : Descriptor) (e : EventDoc) : Bool := e.descriptor == pd.uid

/-- The last element of a list, else a default: the baseline event retained
after a sequence of baseline events. -/
def lastOr (dflt : Option EventDoc) : List EventDoc → Option EventDoc
  | [] => dflt
  | e :: es => lastOr (some e) es

/-- The scan-header text written at first-primary-event time. -/
def scanHeaderChunk (st : StartDoc) (pd : Descriptor) (be : Option EventDoc) :
    String :=
  (toSpecScanHeaderE st pd be).toOption.getD ""

/-- One data line as written (the rendered event template plus the trailing
newline added by `Serializer.event`). -/
def dataChunk (st : StartDoc) (pd : Descriptor) (e : EventDoc) : String :=
  ((toSpecScanDataE st pd e).toOption.getD "") ++ "\n"

/-- Concatenation of a list of strings. -/
def strConcat : List String → String
  | [] => ""
  | a :: l => a ++ strConcat l

/-- Everything a sequence of events appends to the output: the file header
if still pending and a primary event arrives, then likewise the scan header
(rendered with the baseline event retained at that moment), then one data
line per primary event and nothing for baseline events. -/
def eventsEmitted (st : StartDoc) (pd : Descriptor) (fh sh : Bool)
    (fhStr : String) (be : Option EventDoc) (E : List EventDoc) : String :=
  (if E.any (primEvt pd) && fh then fhStr else "") ++
  ((if E.any (primEvt pd) && sh then
      scanHeaderChunk st pd (lastOr be (E.takeWhile (fun e => !primEvt pd e)))
    else "") ++
  strConcat ((E.filter (primEvt pd)).map (dataChunk st pd)))

theorem getScanDataColumnNamesE_ok (st : StartDoc) (pd : Descriptor)
    (mn : String) (hmn : getMotorNameE st = .ok mn) :
    getScanDataColumnNamesE st pd = .ok (columnsOf pd mn) := by
  unfold getScanDataColumnNamesE
  rw [hmn]
  rfl

theorem toSpecScanHeaderE_ok (st : StartDoc) (pd : Descriptor)
    (be : Option EventDoc) (cmd mn : String)
    (hcmd : specScanCommandE st = .ok cmd) (hmn : getMotorNameE st = .ok mn) :
    toSpecScanHeaderE st pd be =
      .ok (String.intercalate "\n"
        (scanHeaderLinesOf st cmd mn (columnsOf pd mn) be)) := by
  have h2 := getScanDataColumnNamesE_ok st pd mn hmn
  unfold toSpecScanHeaderE toSpecScanHeaderLinesE
  simp only [hcmd, h2, hmn]
  rfl

theorem scanHeaderChunk_eq (st : StartDoc) (pd : Descriptor)
    (be : Option EventDoc) (cmd mn : String)
    (hcmd : specScanCommandE st = .ok cmd) (hmn : getMotorNameE st = .ok mn) :
    scanHeaderChunk st pd be =
      String.intercalate "\n" (scanHeaderLinesOf st cmd mn (columnsOf pd mn) be) := by
  unfold scanHeaderChunk
  rw [toSpecScanHeaderE_ok st pd be cmd mn hcmd hmn]
  rfl

/-- A baseline event is retained and writes nothing. -/
theorem serializerEvent_baseline (s : SState) (bd : Descriptor) (e : EventDoc)
    (hbd : s.baseline_descriptor = some bd) (hb : e.descriptor = bd.uid) :
    serializerEvent s e = .ok { s with
      num_baseline_events_received := s.num_baseline_events_received + 1,
      baseline_event := some e } := by
  unfold serializerEvent
  rw [hbd]
  simp [hb]

/-- A primary event writes the pending headers and exactly one data line. -/
theorem serializerEvent_primary (s : SState) (st : StartDoc) (pd : Descriptor)
    (e : EventDoc) (cmd mn dl : String)
    (hst : s.startDoc = some st) (hpd : s.primary_descriptor = some pd)
    (hopen : s.fileOpen = true)
    (hbd : ∀ bd, s.baseline_descriptor = some bd → bd.uid ≠ pd.uid)
    (hprim : e.descriptor = pd.uid)
    (hcmd : specScanCommandE st = .ok cmd)
    (hmn : getMotorNameE st = .ok mn)
    (hdl : toSpecScanDataE st pd e = .ok dl) :
    serializerEvent s e = .ok { s with
      content := s.content ++
        ((if s.has_not_written_file_header then
            to_spec_file_header st s.filename s.baseline_descriptor else "") ++
         ((if s.has_not_written_scan_header then
            scanHeaderChunk st pd s.baseline_event else "") ++ (dl ++ "\n"))),
      has_not_written_file_header := false,
      has_not_written_scan_header := false,
      num_events_received := s.num_events_received + 1 } := by
  have hbind : ∀ {α β : Type} (x : α) (f : α → Except PyErr β),
      (Except.ok x >>= f) = f x := fun _ _ => rfl
  have hmain : serializerEvent s e = serializerEventMain s e := by
    unfold serializerEvent
    cases hb : s.baseline_descriptor with
    | none => rfl
    | some bd =>
      have hne : (e.descriptor == bd.uid) = false := by
        rw [hprim]
        exact beq_eq_false_iff_ne.mpr (fun h => hbd bd hb h.symm)
      simp [hne]
  rw [hmain]
  have hsh := scanHeaderChunk_eq st pd s.baseline_event cmd mn hcmd hmn
  have hhdr := toSpecScanHeaderE_ok st pd s.baseline_event cmd mn hcmd hmn
  obtain ⟨c, fn, sd, bdd, bev, pdd, shB, fhB, nev, nbv, fo⟩ := s
  dsimp only at hst hpd hopen hsh hhdr ⊢
  subst hst
  subst hpd
  subst hopen
  rcases fhB <;> rcases shB <;>
    simp [serializerEventMain, hbind, hhdr, hdl, hprim, hsh, String.append_assoc]


/-- What a sequence of events does to the serializer, in closed form:
content grows by `eventsEmitted`, the header flags clear exactly when a
primary event arrives, the retained baseline event is the last baseline
event (if any), and the counters advance by the number of primary resp.
baseline events. -/
theorem runEvents_emitted
    (st : StartDoc) (pd : Descriptor) (cmd mn : String)
    (hcmd : specScanCommandE st = .ok cmd)
    (hmn : getMotorNameE st = .ok mn) :
    ∀ (E : List EventDoc) (rest : List Doc) (s : SState),
      s.startDoc = some st →
      s.primary_descriptor = some pd →
      s.fileOpen = true →
      (∀ bd, s.baseline_descriptor = some bd → bd.uid ≠ pd.uid) →
      (∀ e ∈ E, primEvt pd e = true ∨
        ∃ bd, s.baseline_descriptor = some bd ∧ e.descriptor = bd.uid) →
      (∀ e ∈ E, primEvt pd e = true → ∃ dl, toSpecScanDataE st pd e = .ok dl) →
      runDocs s (E.map Doc.event ++ rest) =
        runDocs { s with
          content := s.content ++ eventsEmitted st pd
            s.has_not_written_file_header s.has_not_written_scan_header
            (to_spec_file_header st s.filename s.baseline_descriptor)
            s.baseline_event E,
          has_not_written_file_header :=
            s.has_not_written_file_header && !(E.any (primEvt pd)),
          has_not_written_scan_header :=
            s.has_not_written_scan_header && !(E.any (primEvt pd)),
          num_events_received :=
            s.num_events_received + (E.filter (primEvt pd)).length,
          num_baseline_events_received :=
            s.num_baseline_events_received +
              (E.filter (fun e => !primEvt pd e)).length,
          baseline_event :=
            lastOr s.baseline_event (E.filter (fun e => !primEvt pd e)) } rest := by
  intro E
  induction E with
  | nil =>
    intro rest s hst hpd hopen hbd hEkind hEok
    simp [List.any_nil, List.filter_nil, lastOr, eventsEmitted, strConcat,
      List.takeWhile_nil, String.append_empty]
  | cons e E ih =>
    intro rest s hst hpd hopen hbd hEkind hEok
    rcases hc : primEvt pd e with _ | _
    · -- baseline event
      have hbase : ∃ bd, s.baseline_descriptor = some bd ∧ e.descriptor = bd.uid := by
        rcases hEkind e (List.mem_cons_self e E) with h | h
        · rw [hc] at h; cases h
        · exact h
      obtain ⟨bd, hbd2, hbe⟩ := hbase
      have hstep := serializerEvent_baseline s bd e hbd2 hbe
      simp only [List.map_cons, List.cons_append, runDocs, stepDoc, hstep,
        List.append_eq]
      rw [ih rest _ (by exact hst) (by exact hpd) (by exact hopen)
        (by exact hbd)
        (by intro x hx; exact hEkind x (List.mem_cons_of_mem e hx))
        (by intro x hx hpx; exact hEok x (List.mem_cons_of_mem e hx) hpx)]
      congr 1
      simp only [SState.mk.injEq, eventsEmitted, List.any_cons, hc,
        Bool.false_or, List.filter_cons, Bool.not_false, if_true, if_false,
        List.takeWhile_cons, Bool.not_true, lastOr, List.length_cons,
        ite_true, ite_false]
      and_intros <;>
        first
          | rfl
          | omega
          | trivial
    · -- primary event
      obtain ⟨dl, hdl⟩ := hEok e (List.mem_cons_self e E) hc
      have hprim : e.descriptor = pd.uid := by
        have h2 := hc
        unfold primEvt at h2
        exact eq_of_beq h2
      have hstep := serializerEvent_primary s st pd e cmd mn dl hst hpd hopen
        hbd hprim hcmd hmn hdl
      simp only [List.map_cons, List.cons_append, runDocs, stepDoc, hstep,
        List.append_eq]
      rw [ih rest _ (by exact hst) (by exact hpd) (by exact hopen)
        (by exact hbd)
        (by intro x hx; exact hEkind x (List.mem_cons_of_mem e hx))
        (by intro x hx hpx; exact hEok x (List.mem_cons_of_mem e hx) hpx)]
      congr 1
      simp only [SState.mk.injEq, eventsEmitted, List.any_cons, hc,
        Bool.true_or, Bool.true_and, List.filter_cons, Bool.not_true,
        if_true, if_false, ite_true, ite_false, List.takeWhile_cons, lastOr,
        List.length_cons, Bool.false_and, Bool.and_false,
        String.append_empty, String.empty_append, strConcat, dataChunk, hdl,
        Bool.not_false]
      and_intros <;>
        first
          | rfl
          | omega
          | trivial
          | simp [Except.toOption, Option.getD_some, String.append_assoc]

/-- The document list of one full run: start, an optional baseline
descriptor, the primary descriptor, the events, stop. -/
def runOfDocs (st : StartDoc) (bds : Option Descriptor) (pd : Descriptor)
    (E : List EventDoc) (sp : StopDoc) : List Doc :=
  [Doc.start st] ++
    (match bds with | some bd => [Doc.descriptor bd] | Option.none => []) ++
    [Doc.descriptor pd] ++ E.map Doc.event ++ [Doc.stop sp]

/-- A full run, end to end: no exception is raised and the final state is
given in closed form.  The output grows by exactly `eventsEmitted`
(headers once, one data line per primary event, nothing for baseline
events) plus the stop trailer. -/
theorem runDocs_full
    (c : String) (st : StartDoc) (bds : Option Descriptor) (pd : Descriptor)
    (E : List EventDoc) (sp : StopDoc) (cmd mn : String)
    (hcmd : specScanCommandE st = .ok cmd)
    (hmn : getMotorNameE st = .ok mn)
    (hpdname : (pd.name == some "baseline") = false)
    (hbds : ∀ bd, bds = some bd → bd.name = some "baseline" ∧ bd.uid ≠ pd.uid)
    (hEkind : ∀ e ∈ E, primEvt pd e = true ∨
      ∃ bd, bds = some bd ∧ e.descriptor = bd.uid)
    (hEok : ∀ e ∈ E, primEvt pd e = true → ∃ dl, toSpecScanDataE st pd e = .ok dl) :
    runDocs (initSState c) (runOfDocs st bds pd E sp) =
      ({ content := (c ++ eventsEmitted st pd (c == "") true
            (to_spec_file_header st (st.uid ++ ".spec") bds) Option.none E) ++
            stopMsg sp,
         filename := st.uid ++ ".spec",
         startDoc := some st,
         baseline_descriptor := bds,
         baseline_event := lastOr Option.none (E.filter (fun e => !primEvt pd e)),
         primary_descriptor := some pd,
         has_not_written_scan_header := !E.any (primEvt pd),
         has_not_written_file_header := (c == "") && !E.any (primEvt pd),
         num_events_received := (E.filter (primEvt pd)).length,
         num_baseline_events_received :=
           (E.filter (fun e => !primEvt pd e)).length,
         fileOpen := true }, Option.none) := by
  have hrun := runEvents_emitted st pd cmd mn hcmd hmn E [Doc.stop sp]
  cases bds with
  | none =>
    simp only [runOfDocs, List.append_nil, List.cons_append, List.nil_append,
      List.singleton_append]
    simp only [runDocs, stepDoc, serializerStart, serializerDescriptor,
      initSState, hpdname, Bool.false_eq_true, if_false]
    rw [hrun _ rfl rfl rfl
      (by intro bd h; cases h)
      (by intro e he
          rcases hEkind e he with h | h
          · exact Or.inl h
          · obtain ⟨bd, hbd, _⟩ := h; cases hbd)
      hEok]
    simp [runDocs, stepDoc, serializerStop, eventsEmitted]
  | some bd =>
    obtain ⟨hbn, hbu⟩ := hbds bd rfl
    have hbn2 : (bd.name == some "baseline") = true := by
      rw [hbn]; rfl
    simp only [runOfDocs, List.append_nil, List.cons_append, List.nil_append,
      List.singleton_append]
    simp only [runDocs, stepDoc, serializerStart, serializerDescriptor,
      initSState, hpdname, hbn2, Bool.false_eq_true, if_false, if_true]
    rw [hrun _ rfl rfl rfl
      (by intro bd2 h
          injection h with h2
          subst h2
          exact hbu)
      (by intro e he
          rcases hEkind e he with h | h
          · exact Or.inl h
          · obtain ⟨bd2, hbd2, hde⟩ := h
            injection hbd2 with h2
            exact Or.inr ⟨bd2, congrArg some h2, hde⟩)
      hEok]
    simp [runDocs, stepDoc, serializerStop, eventsEmitted]

/-- `Serializer.event` never changes the stored start document or primary
descriptor (so anything computed from them, like the column selection, is
identical before and after any event). -/
theorem serializerEventMain_preserves (s : SState) (e : EventDoc) (s2 : SState)
    (h : serializerEventMain s e = .ok s2) :
    s2.startDoc = s.startDoc ∧ s2.primary_descriptor = s.primary_descriptor := by
  unfold serializerEventMain at h
  simp only [bind, Except.bind] at h
  repeat' split at h
  all_goals
    first
      | exact Except.noConfusion h
      | (injection h with h2; subst h2; exact ⟨rfl, rfl⟩)

theorem serializerEvent_preserves (s : SState) (e : EventDoc) (s2 : SState)
    (h : serializerEvent s e = .ok s2) :
    s2.startDoc = s.startDoc ∧ s2.primary_descriptor = s.primary_descriptor := by
  unfold serializerEvent at h
  repeat' split at h
  all_goals
    first
      | exact Except.noConfusion h
      | (injection h with h2; subst h2; exact ⟨rfl, rfl⟩)
      | exact serializerEventMain_preserves s e s2 h

/-- The command-argument extraction can fail only with `IndexError` or
`KeyError`, never with `NotImplementedError`. -/
theorem specCommandArgsE_ne_notImpl (st : StartDoc) :
    specCommandArgsE st ≠ .error .notImplemented := by
  intro heq
  unfold specCommandArgsE at heq
  by_cases hcond : ((specScanNames.lookup (getPlanName st)).isNone ||
      (scansWithoutMotors.lookup (getPlanName st)).isSome) = true
  · rw [if_pos hcond] at heq
    exact Except.noConfusion heq
  · rw [if_neg hcond] at heq
    repeat' split at heq
    all_goals simp_all

/-- The scan-header renderer raises `NotImplementedError` only when the
motor-name lookup does. -/
theorem toSpecScanHeaderE_ne_notImpl (st : StartDoc) (pd : Descriptor)
    (be : Option EventDoc) (h1 : getMotorNameE st ≠ .error .notImplemented) :
    toSpecScanHeaderE st pd be ≠ .error .notImplemented := by
  intro heq
  have h2 := specCommandArgsE_ne_notImpl st
  cases hm : getMotorNameE st with
  | error err =>
    simp only [toSpecScanHeaderE, toSpecScanHeaderLinesE, specScanCommandE,
      getScanDataColumnNamesE, hm] at heq
    simp only [bind, Except.bind, Except.map] at heq
    injection heq with h3
    rw [h3] at hm
    exact h1 hm
  | ok mn =>
    cases hc : specCommandArgsE st with
    | error err2 =>
      simp only [toSpecScanHeaderE, toSpecScanHeaderLinesE, specScanCommandE,
        getScanDataColumnNamesE, hm, hc] at heq
      simp only [bind, Except.bind, Except.map] at heq
      injection heq with h3
      rw [h3] at hc
      exact h2 hc
    | ok cargs =>
      simp only [toSpecScanHeaderE, toSpecScanHeaderLinesE, specScanCommandE,
        getScanDataColumnNamesE, hm, hc] at heq
      simp only [bind, Except.bind, Except.map] at heq
      exact Except.noConfusion heq

/-- The motor-position lookup raises `NotImplementedError` only when the
motor-name lookup does. -/
theorem getMotorPositionE_ne_notImpl (st : StartDoc) (e : EventDoc)
    (h1 : getMotorNameE st ≠ .error .notImplemented) :
    getMotorPositionE st e ≠ .error .notImplemented := by
  intro heq
  unfold getMotorPositionE at heq
  cases hm : getMotorNameE st with
  | error err =>
    simp only [hm, bind, Except.bind] at heq
    repeat' split at heq
    all_goals simp_all
  | ok mn =>
    simp only [hm, bind, Except.bind] at heq
    repeat' split at heq
    all_goals simp_all

/-- Structural newline splitter (the line view of the produced text). -/
def splitNl : List Char → List (List Char)
  | [] => [[]]
  | c :: cs =>
    if c = '\n' then [] :: splitNl cs
    else
      match splitNl cs with
      | [] => [[c]]
      | l :: ls => (c :: l) :: ls

/-- The lines of a string (what splitting on `'\n'` yields). -/
def linesOf (s : String) : List String := (splitNl s.data).map (fun l => String.mk l)

/-! ## Concrete scenario documents (the spec's end-to-end scenario) -/

/-- The end-to-end scenario's start document:
`start(plan_name="count", scan_id=7, time=1000000000)`. -/
def c1Start : StartDoc :=
  { uid := "u1", time := 1000000000, plan_name := "count", scan_id := 7,
    owner := Option.none, count_time := Option.none, motors := [],
    plan_args_args := [], plan_args_num := Option.none }

/-- The scenario's primary descriptor with the single scalar field `det`. -/
def c1Primary : Descriptor :=
  { name := some "primary", uid := "p1",
    data_keys := [("det", { source := "s", object_name := "det", shape := [] })] }

/-- First primary event: `seq_num=0, det=1.5, time=1000000001`. -/
def c1Event0 : EventDoc :=
  { descriptor := "p1", seq_num := 0, time := 1000000001,
    data := [("det", PyVal.float "1.5")] }

/-- Second primary event: `seq_num=1, det=2.5, time=1000000002`. -/
def c1Event1 : EventDoc :=
  { descriptor := "p1", seq_num := 1, time := 1000000002,
    data := [("det", PyVal.float "2.5")] }

/-- The scenario's stop document: `stop(exit_status="success")`. -/
def c1Stop : StopDoc := { exit_status := "success", reason := Option.none }

/-- The end-to-end document sequence of the scenario. -/
def c1Docs : List Doc :=
  [.start c1Start, .descriptor c1Primary, .event c1Event0, .event c1Event1,
   .stop c1Stop]

/-- A baseline descriptor declaring four fields. -/
def c2Baseline : Descriptor :=
  { name := some "baseline", uid := "b1",
    data_keys := [("p1", { source := "s1", object_name := "pos", shape := [] }),
                  ("p2", { source := "s2", object_name := "pos", shape := [] }),
                  ("p3", { source := "s3", object_name := "pos", shape := [] }),
                  ("p4", { source := "s4", object_name := "pos", shape := [] })] }

/-- A run with a four-field baseline descriptor but no baseline event. -/
def c2Docs : List Doc :=
  [.start c1Start, .descriptor c2Baseline, .descriptor c1Primary,
   .event c1Event0, .stop c1Stop]

/-- A second baseline descriptor (different uid). -/
def c3Baseline2 : Descriptor :=
  { name := some "baseline", uid := "b2", data_keys := [] }

/-- A second primary descriptor. -/
def c8Primary2 : Descriptor :=
  { name := Option.none, uid := "q1", data_keys := [] }

/-- An absolute-scan start declaring two scanning motors. -/
def c9Start : StartDoc :=
  { uid := "u9", time := 1000000000, plan_name := "scan", scan_id := 1,
    owner := Option.none, count_time := Option.none, motors := ["m1", "m2"],
    plan_args_args := [PyVal.int 0, PyVal.int 10],
    plan_args_num := some (PyVal.int 5) }

/-! ## The claims -/

set_option maxRecDepth 40000 in
/-- **C1** (amended).  Feeding the Serializer the end-to-end scenario
(start(plan_name="count", scan_id=7, time=1000000000); primary descriptor
with scalar field "det"; two primary events; stop(exit_status="success"))
produces, after the six-line file header, a scan header whose command
string is `"ct seq_num -1"` (`get_name` maps the bluesky plan name
`"count"` to the SPEC scan name `"ct"`), then the two data lines
`"0  1000000001 -1 1.5"` and `"1  1000000002 -1 2.5"` (each preceded by the
blank line that the event template's leading newline produces), then the
trailing blank line of the success trailer, with no failure comment. -/
theorem claim_C1 :
    runDocs (initSState "") c1Docs =
      ({ content := "#F u1.spec\n#E 1000000000\n#D Sun Sep 09 01:46:40 2001\n#C   User = \n#O0 \n#o0 \n\n#S 7 ct seq_num -1\n#D Sun Sep 09 01:46:40 2001\n#T -1  (Seconds)\n#P0 \n#N 4\n#L seq_num  Epoch  Seconds  det\n0  1000000001 -1 1.5\n\n1  1000000002 -1 2.5\n\n",
         filename := "u1.spec", startDoc := some c1Start,
         baseline_descriptor := Option.none, baseline_event := Option.none,
         primary_descriptor := some c1Primary,
         has_not_written_scan_header := false,
         has_not_written_file_header := false,
         num_events_received := 2, num_baseline_events_received := 0,
         fileOpen := true }, Option.none) := by
  decide

set_option maxRecDepth 40000 in
/-- **C1** (counterexample to the claim as stated).  The scan-header command
of the scenario is `"ct seq_num -1"`, not `"count seq_num -1"`: the
produced file contains the line `"#S 7 ct seq_num -1"` and no line
containing the claimed command. -/
theorem claim_C1_counterexample :
    specScanCommandE c1Start = .ok "ct seq_num -1" ∧
    "ct seq_num -1" ≠ "count seq_num -1" ∧
    (linesOf (runDocs (initSState "") c1Docs).1.content).contains
      "#S 7 ct seq_num -1" = true ∧
    (linesOf (runDocs (initSState "") c1Docs).1.content).contains
      "#S 7 count seq_num -1" = false := by
  exact ⟨rfl, by decide, by decide, by decide⟩

set_option maxRecDepth 40000 in
/-- **C2** (counterexample to the claim as stated).  In a run whose baseline
descriptor declares four fields and in which no baseline event arrives,
the scan header's positioner line is `"#P0 "` — an empty list, not four
`-1` sentinels. -/
theorem claim_C2_counterexample :
    c2Baseline.data_keys.length = 4 ∧
    (runDocs (initSState "") c2Docs).2 = Option.none ∧
    (linesOf (runDocs (initSState "") c2Docs).1.content).contains "#P0 " = true ∧
    (linesOf (runDocs (initSState "") c2Docs).1.content).contains
      "#P0 -1 -1 -1 -1" = false := by
  exact ⟨by decide, rfl, by decide, by decide⟩

/-- **C3** (amended).  When two descriptors named `"baseline"` are fed to
the Serializer in one run, the *second* one replaces the first (the handler
assigns unconditionally, so the last one wins), and no error is raised. -/
theorem claim_C3 (c : String) (st : StartDoc) (d1 d2 : Descriptor)
    (h1 : (d1.name == some "baseline") = true)
    (h2 : (d2.name == some "baseline") = true) :
    runDocs (initSState c) [Doc.start st, Doc.descriptor d1, Doc.descriptor d2] =
      ({ serializerStart (initSState c) st with baseline_descriptor := some d2 },
       Option.none) := by
  simp [runDocs, stepDoc, serializerDescriptor, h1, h2]

set_option maxRecDepth 40000 in
/-- **C3** witness: two concrete baseline descriptors. -/
theorem claim_C3_witness :
    (c2Baseline.name == some "baseline") = true ∧
    (c3Baseline2.name == some "baseline") = true ∧
    runDocs (initSState "")
        [Doc.start c1Start, Doc.descriptor c2Baseline, Doc.descriptor c3Baseline2] =
      ({ serializerStart (initSState "") c1Start with
          baseline_descriptor := some c3Baseline2 }, Option.none) :=
  ⟨by decide, by decide, claim_C3 "" c1Start c2Baseline c3Baseline2 rfl rfl⟩

set_option maxRecDepth 40000 in
/-- **C3** (counterexample to the claim as stated).  After feeding two
baseline descriptors, the stored one is the second, not the first. -/
theorem claim_C3_counterexample :
    (runDocs (initSState "")
      [Doc.start c1Start, Doc.descriptor c2Baseline, Doc.descriptor c3Baseline2]
      ).1.baseline_descriptor = some c3Baseline2 ∧
    c3Baseline2 ≠ c2Baseline ∧
    (runDocs (initSState "")
      [Doc.start c1Start, Doc.descriptor c2Baseline, Doc.descriptor c3Baseline2]
      ).2 = Option.none := by
  exact ⟨rfl, by decide, rfl⟩

/-- **C8**.  A second non-baseline descriptor raises
`NotImplementedError` (the code's NotSupported condition); at that point
nothing has been written (the content is still the pre-existing content),
and the first primary descriptor remains stored. -/
theorem claim_C8 (c : String) (st : StartDoc) (d1 d2 : Descriptor)
    (h1 : (d1.name == some "baseline") = false)
    (h2 : (d2.name == some "baseline") = false) :
    runDocs (initSState c) [Doc.start st, Doc.descriptor d1, Doc.descriptor d2] =
      ({ serializerStart (initSState c) st with primary_descriptor := some d1 },
       some PyErr.notImplemented) ∧
    ({ serializerStart (initSState c) st with
        primary_descriptor := some d1 } : SState).content = c := by
  constructor
  · simp [runDocs, stepDoc, serializerDescriptor, h1, h2, serializerStart,
      initSState]
  · rfl

set_option maxRecDepth 40000 in
/-- **C8** witness: two concrete primary descriptors. -/
theorem claim_C8_witness :
    (c1Primary.name == some "baseline") = false ∧
    (c8Primary2.name == some "baseline") = false ∧
    (runDocs (initSState "")
        [Doc.start c1Start, Doc.descriptor c1Primary, Doc.descriptor c8Primary2] =
      ({ serializerStart (initSState "") c1Start with
          primary_descriptor := some c1Primary }, some PyErr.notImplemented) ∧
     ({ serializerStart (initSState "") c1Start with
          primary_descriptor := some c1Primary } : SState).content = "") :=
  ⟨by decide, by decide, claim_C8 "" c1Start c1Primary c8Primary2 rfl rfl⟩

/-- **C10**.  A start followed directly by a stop writes exactly the
trailer (a blank line, plus the failure comment when the exit status is
not `"success"`); neither the file header nor the scan header is written,
since header emission happens only in event processing. -/
theorem claim_C10 (c : String) (st : StartDoc) (sp : StopDoc) :
    runDocs (initSState c) [Doc.start st, Doc.stop sp] =
      ({ content := c ++ stopMsg sp, filename := st.uid ++ ".spec",
         startDoc := some st, baseline_descriptor := Option.none,
         baseline_event := Option.none, primary_descriptor := Option.none,
         has_not_written_scan_header := true,
         has_not_written_file_header := (c == ""),
         num_events_received := 0, num_baseline_events_received := 0,
         fileOpen := true }, Option.none) ∧
    (sp.exit_status = "success" → stopMsg sp = "\n") ∧
    (sp.exit_status ≠ "success" → stopMsg sp =
      "\n" ++ "#C Run exited with status: " ++ sp.exit_status ++ ". Reason: " ++
        sp.reason.getD "No reason recorded.") := by
  refine ⟨by simp [runDocs, stepDoc, serializerStart, serializerStop, initSState], ?_, ?_⟩
  · intro h; simp [stopMsg, h]
  · intro h; simp [stopMsg, h]

/-- **C2** (amended).  For every run in which a baseline descriptor (here:
declaring four fields) was received but no baseline event ever arrived,
the scan header emitted at the first primary event is rendered with no
retained baseline event, and its positioner-position list is *empty* (the
sentinel fallback iterates `_DEFAULT_POSITIONERS['data_keys']`, which is
empty; the baseline descriptor's fields play no part), so the `#P0` line
is exactly `"#P0 "` — zero `-1` values, not four. -/
theorem claim_C2 (c : String) (st : StartDoc) (bd pd : Descriptor)
    (E : List EventDoc) (sp : StopDoc) (cmd mn : String)
    (hcmd : specScanCommandE st = .ok cmd)
    (hmn : getMotorNameE st = .ok mn)
    (hpdname : (pd.name == some "baseline") = false)
    (hbn : bd.name = some "baseline") (hbu : bd.uid ≠ pd.uid)
    (_hb4 : bd.data_keys.length = 4)
    (hE : ∀ e ∈ E, primEvt pd e = true)
    (hEok : ∀ e ∈ E, ∃ dl, toSpecScanDataE st pd e = .ok dl) :
    (runDocs (initSState c) (runOfDocs st (some bd) pd E sp)).2 = Option.none ∧
    (runDocs (initSState c) (runOfDocs st (some bd) pd E sp)).1.content =
      (c ++ eventsEmitted st pd (c == "") true
        (to_spec_file_header st (st.uid ++ ".spec") (some bd)) Option.none E) ++
        stopMsg sp ∧
    E.takeWhile (fun e => !primEvt pd e) = [] ∧
    toSpecScanHeaderE st pd Option.none =
      .ok (String.intercalate "\n"
        (scanHeaderLinesOf st cmd mn (columnsOf pd mn) Option.none)) ∧
    specScanHeaderPositions Option.none = [] ∧
    (scanHeaderLinesOf st cmd mn (columnsOf pd mn) Option.none).getD 5 "" =
      "#P0 " := by
  have hfull := runDocs_full c st (some bd) pd E sp cmd mn hcmd hmn hpdname
    (by intro bd2 h; injection h with h2; subst h2; exact ⟨hbn, hbu⟩)
    (by intro e he; exact Or.inl (hE e he))
    (by intro e he _; exact hEok e he)
  refine ⟨by rw [hfull], by rw [hfull], ?_, ?_, rfl, rfl⟩
  · cases E with
    | nil => rfl
    | cons e es =>
      have := hE e (List.mem_cons_self e es)
      simp [List.takeWhile_cons, this]
  · exact toSpecScanHeaderE_ok st pd Option.none cmd mn hcmd hmn

set_option maxRecDepth 40000 in
/-- **C2** witness: the four-field baseline run with one primary event. -/
theorem claim_C2_witness :
    specScanCommandE c1Start = .ok "ct seq_num -1" ∧
    c2Baseline.data_keys.length = 4 ∧
    ((runDocs (initSState "") (runOfDocs c1Start (some c2Baseline) c1Primary
        [c1Event0] c1Stop)).2 = Option.none ∧
     (runDocs (initSState "") (runOfDocs c1Start (some c2Baseline) c1Primary
        [c1Event0] c1Stop)).1.content =
      ("" ++ eventsEmitted c1Start c1Primary (("" : String) == "") true
        (to_spec_file_header c1Start (c1Start.uid ++ ".spec") (some c2Baseline))
        Option.none [c1Event0]) ++ stopMsg c1Stop ∧
     [c1Event0].takeWhile (fun e => !primEvt c1Primary e) = [] ∧
     toSpecScanHeaderE c1Start c1Primary Option.none =
      .ok (String.intercalate "\n"
        (scanHeaderLinesOf c1Start "ct seq_num -1" "seq_num"
          (columnsOf c1Primary "seq_num") Option.none)) ∧
     specScanHeaderPositions Option.none = [] ∧
     (scanHeaderLinesOf c1Start "ct seq_num -1" "seq_num"
        (columnsOf c1Primary "seq_num") Option.none).getD 5 "" = "#P0 ") :=
  ⟨rfl, by decide,
   claim_C2 "" c1Start c2Baseline c1Primary [c1Event0] c1Stop
     "ct seq_num -1" "seq_num" rfl rfl rfl rfl (by decide) (by decide)
     (by decide)
     (by intro e he
         rw [List.mem_singleton] at he
         subst he
         exact ⟨"\n0  1000000001 -1 1.5", rfl⟩)⟩

/-- **C4**.  The file header is written at most once per underlying output
file: opening onto content `c`, the run writes the file header exactly when
`c` is empty (the `tell()` probe), while the scan header is written for the
run regardless, before the first data line; and the file header has exactly
six lines. -/
theorem claim_C4 (c : String) (st : StartDoc) (pd : Descriptor) (e : EventDoc)
    (sp : StopDoc) (cmd mn dl : String)
    (hcmd : specScanCommandE st = .ok cmd)
    (hmn : getMotorNameE st = .ok mn)
    (hpdname : (pd.name == some "baseline") = false)
    (hprim : primEvt pd e = true)
    (hdl : toSpecScanDataE st pd e = .ok dl) :
    (runDocs (initSState c) (runOfDocs st Option.none pd [e] sp)).2 =
      Option.none ∧
    (runDocs (initSState c) (runOfDocs st Option.none pd [e] sp)).1.content =
      (c ++ ((if c == "" then to_spec_file_header st (st.uid ++ ".spec")
                Option.none else "") ++
        (scanHeaderChunk st pd Option.none ++ (dl ++ "\n")))) ++ stopMsg sp ∧
    (toSpecFileHeaderLines st (st.uid ++ ".spec") Option.none).length = 6 := by
  have hfull := runDocs_full c st Option.none pd [e] sp cmd mn hcmd hmn hpdname
    (by intro bd h; cases h)
    (by intro x hx; rw [List.mem_singleton] at hx; subst hx; exact Or.inl hprim)
    (by intro x hx _; rw [List.mem_singleton] at hx; subst hx; exact ⟨dl, hdl⟩)
  refine ⟨by rw [hfull], ?_, rfl⟩
  rw [hfull]
  simp only [eventsEmitted, List.any_cons, hprim, Bool.true_or, Bool.true_and,
    List.takeWhile_cons, Bool.not_true, ite_false, if_false, lastOr,
    List.filter_cons, ite_true, List.filter_nil, List.map_cons, List.map_nil,
    strConcat, dataChunk, hdl, Except.toOption, Option.getD_some,
    String.append_empty, List.any_nil, Bool.or_false]

set_option maxRecDepth 40000 in
/-- **C4** witness: fresh file and pre-filled file both behave as stated. -/
theorem claim_C4_witness :
    primEvt c1Primary c1Event0 = true ∧
    ((runDocs (initSState "OLD") (runOfDocs c1Start Option.none c1Primary
        [c1Event0] c1Stop)).2 = Option.none ∧
     (runDocs (initSState "OLD") (runOfDocs c1Start Option.none c1Primary
        [c1Event0] c1Stop)).1.content =
      ("OLD" ++ ((if ("OLD" : String) == "" then to_spec_file_header c1Start
            (c1Start.uid ++ ".spec") Option.none else "") ++
        (scanHeaderChunk c1Start c1Primary Option.none ++
          ("\n0  1000000001 -1 1.5" ++ "\n")))) ++ stopMsg c1Stop ∧
     (toSpecFileHeaderLines c1Start (c1Start.uid ++ ".spec")
        Option.none).length = 6) :=
  ⟨by decide,
   claim_C4 "OLD" c1Start c1Primary c1Event0 c1Stop "ct seq_num -1" "seq_num"
     "\n0  1000000001 -1 1.5" rfl rfl rfl (by decide) rfl⟩

/-- **C5**.  For every integer-second epoch time `t` in `datetime`'s
representable range (up to year 9999), parsing the text produced by
formatting `t` yields `t` back: the parsed civil time is exactly
`epochToCivil t`, and its epoch value is `t`. -/
theorem claim_C5 (t : Nat) (ht : t < 253402300800) :
    (from_spec_time (to_spec_time (epochToCivil t))).map civilToEpoch =
      some t ∧
    from_spec_time (to_spec_time (epochToCivil t)) = some (epochToCivil t) := by
  obtain ⟨h1, h2, h3, h4, h5, h6, h7, _h8, h9⟩ := epochToCivil_valid t ht
  have hrt := from_to_spec_time (epochToCivil t) h1 h2 h3 h4 h5 h6 h7 h9
  refine ⟨?_, hrt⟩
  rw [hrt]
  simp [civilToEpoch_epochToCivil]

set_option maxRecDepth 40000 in
/-- **C5** witness: the scenario epoch 1000000000
(`"Sun Sep 09 01:46:40 2001"`). -/
theorem claim_C5_witness :
    1000000000 < 253402300800 ∧
    ((from_spec_time (to_spec_time (epochToCivil 1000000000))).map
        civilToEpoch = some 1000000000 ∧
     from_spec_time (to_spec_time (epochToCivil 1000000000)) =
        some (epochToCivil 1000000000)) :=
  ⟨by decide, claim_C5 1000000000 (by decide)⟩

/-- **C6**.  The column selector returns exactly the primary descriptor's
fields with scalar (empty) shape whose owning object is not the scanning
variable, sorted lexicographically (code-point order, as Python's `sorted`)
by field name; and event processing never changes the stored start document
or primary descriptor, so the selection is identical in content and order
whenever it is queried within one run. -/
theorem claim_C6 (st : StartDoc) (pd : Descriptor) (mn : String)
    (hmn : getMotorNameE st = .ok mn) :
    (getScanDataColumnNamesE st pd = .ok (columnsOf pd mn) ∧
     List.Sorted (fun a b : String => strLe a b = true) (columnsOf pd mn) ∧
     (columnsOf pd mn).Perm
       ((pd.data_keys.filter
         (fun kv => kv.2.object_name != mn && kv.2.shape.isEmpty)).map
           Prod.fst)) ∧
    (∀ (s : SState) (e : EventDoc) (s2 : SState),
      serializerEvent s e = .ok s2 →
      s2.startDoc = s.startDoc ∧ s2.primary_descriptor = s.primary_descriptor) := by
  haveI hTot : IsTotal String (fun a b : String => strLe a b = true) :=
    ⟨fun a b => listLeCh_total a.data b.data⟩
  haveI hTr : IsTrans String (fun a b : String => strLe a b = true) :=
    ⟨fun a b c hab hbc => listLeCh_trans a.data b.data c.data hab hbc⟩
  exact ⟨⟨getScanDataColumnNamesE_ok st pd mn hmn,
    List.sorted_insertionSort _ _, List.perm_insertionSort _ _⟩,
    serializerEvent_preserves⟩

set_option maxRecDepth 40000 in
/-- **C6** witness: the scenario's start and primary descriptor. -/
theorem claim_C6_witness :
    getMotorNameE c1Start = .ok "seq_num" ∧
    ((getScanDataColumnNamesE c1Start c1Primary =
        .ok (columnsOf c1Primary "seq_num") ∧
      List.Sorted (fun a b : String => strLe a b = true)
        (columnsOf c1Primary "seq_num") ∧
      (columnsOf c1Primary "seq_num").Perm
        ((c1Primary.data_keys.filter
          (fun kv => kv.2.object_name != "seq_num" && kv.2.shape.isEmpty)).map
            Prod.fst)) ∧
     (∀ (s : SState) (e : EventDoc) (s2 : SState),
       serializerEvent s e = .ok s2 →
       s2.startDoc = s.startDoc ∧
       s2.primary_descriptor = s.primary_descriptor)) :=
  ⟨rfl, claim_C6 c1Start c1Primary "seq_num" rfl⟩

/-- **C7**.  For every run, the serializer raises nothing, the number of
data lines written equals the number of primary events received (the
content grows by `eventsEmitted`, whose data part is the concatenation of
exactly one `dataChunk` per primary event, and the per-run counter ends at
that same number), and processing a baseline event writes nothing to the
output (it only bumps the baseline counter and replaces the retained
baseline event). -/
theorem claim_C7 (c : String) (st : StartDoc) (bds : Option Descriptor)
    (pd : Descriptor) (E : List EventDoc) (sp : StopDoc) (cmd mn : String)
    (hcmd : specScanCommandE st = .ok cmd)
    (hmn : getMotorNameE st = .ok mn)
    (hpdname : (pd.name == some "baseline") = false)
    (hbds : ∀ bd, bds = some bd → bd.name = some "baseline" ∧ bd.uid ≠ pd.uid)
    (hEkind : ∀ e ∈ E, primEvt pd e = true ∨
      ∃ bd, bds = some bd ∧ e.descriptor = bd.uid)
    (hEok : ∀ e ∈ E, primEvt pd e = true →
      ∃ dl, toSpecScanDataE st pd e = .ok dl) :
    ((runDocs (initSState c) (runOfDocs st bds pd E sp)).2 = Option.none ∧
     (runDocs (initSState c) (runOfDocs st bds pd E sp)).1.num_events_received =
       (E.filter (primEvt pd)).length ∧
     (runDocs (initSState c) (runOfDocs st bds pd E sp)).1.content =
       (c ++ eventsEmitted st pd (c == "") true
         (to_spec_file_header st (st.uid ++ ".spec") bds) Option.none E) ++
         stopMsg sp ∧
     ((E.filter (primEvt pd)).map (dataChunk st pd)).length =
       (E.filter (primEvt pd)).length) ∧
    (∀ (s : SState) (bd : Descriptor) (e : EventDoc),
      s.baseline_descriptor = some bd → e.descriptor = bd.uid →
      serializerEvent s e = .ok { s with
        num_baseline_events_received := s.num_baseline_events_received + 1,
        baseline_event := some e }) := by
  have hfull := runDocs_full c st bds pd E sp cmd mn hcmd hmn hpdname hbds
    hEkind hEok
  exact ⟨⟨by rw [hfull], by rw [hfull], by rw [hfull], List.length_map _ _⟩,
    fun s bd e hbd hbe => serializerEvent_baseline s bd e hbd hbe⟩

set_option maxRecDepth 40000 in
/-- **C7** witness: one baseline descriptor, one primary event. -/
theorem claim_C7_witness :
    specScanCommandE c1Start = .ok "ct seq_num -1" ∧
    (((runDocs (initSState "") (runOfDocs c1Start (some c2Baseline) c1Primary
        [c1Event0] c1Stop)).2 = Option.none ∧
      (runDocs (initSState "") (runOfDocs c1Start (some c2Baseline) c1Primary
        [c1Event0] c1Stop)).1.num_events_received =
       ([c1Event0].filter (primEvt c1Primary)).length ∧
      (runDocs (initSState "") (runOfDocs c1Start (some c2Baseline) c1Primary
        [c1Event0] c1Stop)).1.content =
       ("" ++ eventsEmitted c1Start c1Primary (("" : String) == "") true
         (to_spec_file_header c1Start (c1Start.uid ++ ".spec")
           (some c2Baseline)) Option.none [c1Event0]) ++ stopMsg c1Stop ∧
      (([c1Event0].filter (primEvt c1Primary)).map
        (dataChunk c1Start c1Primary)).length =
       ([c1Event0].filter (primEvt c1Primary)).length) ∧
     (∀ (s : SState) (bd : Descriptor) (e : EventDoc),
       s.baseline_descriptor = some bd → e.descriptor = bd.uid →
       serializerEvent s e = .ok { s with
         num_baseline_events_received := s.num_baseline_events_received + 1,
         baseline_event := some e })) :=
  ⟨rfl,
   claim_C7 "" c1Start (some c2Baseline) c1Primary [c1Event0] c1Stop
     "ct seq_num -1" "seq_num" rfl rfl rfl
     (by intro bd h; injection h with h2; subst h2; exact ⟨rfl, by decide⟩)
     (by intro e he; rw [List.mem_singleton] at he; subst he
         exact Or.inl (by decide))
     (by intro e he _; rw [List.mem_singleton] at he; subst he
         exact ⟨"\n0  1000000001 -1 1.5", rfl⟩)⟩

/-- **C9**.  For an absolute-scan (`ascan`) or relative-scan (`dscan`)
archetype start declaring more than one scanning variable, the
scanning-variable lookup — and hence scan-header rendering and
motor-position lookup — raises `NotImplementedError` (the NotSupported
condition); with zero or one declared scanning variable, none of the three
can raise it. -/
theorem claim_C9 (st : StartDoc) (pd : Descriptor) (be : Option EventDoc)
    (e : EventDoc)
    (hplan : getPlanName st = "ascan" ∨ getPlanName st = "dscan") :
    (2 ≤ st.motors.length →
      getMotorNameE st = .error .notImplemented ∧
      toSpecScanHeaderE st pd be = .error .notImplemented ∧
      getMotorPositionE st e = .error .notImplemented) ∧
    (st.motors.length ≤ 1 →
      getMotorNameE st ≠ .error .notImplemented ∧
      toSpecScanHeaderE st pd be ≠ .error .notImplemented ∧
      getMotorPositionE st e ≠ .error .notImplemented) := by
  have hc1 : ((specScanNames.lookup (getPlanName st)).isNone ||
      (scansWithoutMotors.lookup (getPlanName st)).isSome) = false := by
    rcases hplan with h | h <;> rw [h] <;> rfl
  constructor
  · intro hlen
    have hmn : getMotorNameE st = .error .notImplemented := by
      unfold getMotorNameE
      simp only [hc1, Bool.false_eq_true, if_false]
      rw [if_pos (by omega)]
    refine ⟨hmn, ?_, ?_⟩
    · simp only [toSpecScanHeaderE, toSpecScanHeaderLinesE, specScanCommandE,
        getScanDataColumnNamesE, hmn]
      rfl
    · unfold getMotorPositionE
      simp only [hc1, Bool.false_eq_true, if_false, hmn]
      rfl
  · intro hlen
    have hmn : getMotorNameE st ≠ .error .notImplemented := by
      unfold getMotorNameE
      simp only [hc1, Bool.false_eq_true, if_false]
      rw [if_neg (by omega)]
      cases hm : st.motors with
      | nil => simp
      | cons m tail => simp
    exact ⟨hmn, toSpecScanHeaderE_ne_notImpl st pd be hmn,
      getMotorPositionE_ne_notImpl st e hmn⟩

set_option maxRecDepth 40000 in
/-- **C9** witness: a two-motor `scan` start. -/
theorem claim_C9_witness :
    (getPlanName c9Start = "ascan" ∨ getPlanName c9Start = "dscan") ∧
    ((2 ≤ c9Start.motors.length →
       getMotorNameE c9Start = .error .notImplemented ∧
       toSpecScanHeaderE c9Start c1Primary Option.none =
         .error .notImplemented ∧
       getMotorPositionE c9Start c1Event0 = .error .notImplemented) ∧
     (c9Start.motors.length ≤ 1 →
       getMotorNameE c9Start ≠ .error .notImplemented ∧
       toSpecScanHeaderE c9Start c1Primary Option.none ≠
         .error .notImplemented ∧
       getMotorPositionE c9Start c1Event0 ≠ .error .notImplemented)) :=
  ⟨Or.inl rfl, claim_C9 c9Start c1Primary Option.none c1Event0 (Or.inl rfl)⟩
